import Mathlib

namespace Viz

/-- A Python literal value as it appears in the notebook's configuration
dictionary: strings, integers, decimal literals (`vdec m e` denotes the
literal `m × 10 ^ (-e)`, e.g. `vdec 1 1` is `0.1`), booleans, lists and
(nested) dictionaries with string keys. -/
inductive Value where
  | vstr  : String → Value
  | vint  : Int → Value
  | vdec  : Int → Nat → Value
  | vbool : Bool → Value
  | vlist : List Value → Value
  | vmap  : List (String × Value) → Value

/-- A configuration dictionary: an association list from string keys to values,
in the order the notebook writes the entries. -/
abbrev Config := List (String × Value)

/-- `data_dir` from the notebook. -/
def data_dir : String := "/home/jcohen/testing/testing_datasets/iwp_3_files/"

/-- `filename` from the notebook: the glob pattern for shapefiles. -/
def filename : String := "*.shp"

/-- Split a posix path string into its components as `pathlib.Path` does
(dropping empty pieces, so both absolute paths and trailing slashes
normalise away). -/
def splitPath (s : String) : List String :=
  let r := s.data.foldr
    (fun c acc =>
      if c == '/' then ("", if acc.1 = "" then acc.2 else acc.1 :: acc.2)
      else (⟨c :: acc.1.data⟩, acc.2))
    (("", []) : String × List String)
  if r.1 = "" then r.2 else r.1 :: r.2

/-- `Path.as_posix()` on an absolute path given by its components. -/
def asPosix (comps : List String) : String :=
  comps.foldl (fun acc c => acc ++ "/" ++ c) ""

/-- `fnmatch`-style matching of a single glob pattern against a single path
component, character by character: `*` matches any (possibly empty) sequence
of characters, `?` matches exactly one character, anything else matches
itself. -/
def fnmatchChars : List Char → List Char → Bool
  | [], cs => cs.isEmpty
  | p :: ps, cs =>
      if p == '*' then
        (List.range (cs.length + 1)).any fun k => fnmatchChars ps (cs.drop k)
      else
        match cs with
        | [] => false
        | c :: cs' => (p == '?' || p == c) && fnmatchChars ps cs'

/-- String-level fnmatch. -/
def fnmatch (pat s : String) : Bool := fnmatchChars pat.data s.data

/-- Whether a mapping occurs anywhere inside a value. -/
def hasMap : Value → Bool
  | .vstr _ => false
  | .vint _ => false
  | .vdec _ _ => false
  | .vbool _ => false
  | .vlist xs => xs.attach.any fun v => hasMap v.1
  | .vmap _ => true
decreasing_by
  simp_wf
  have := List.sizeOf_lt_of_mem v.2
  omega

/-- `Path(base).glob('**/' + filename)` followed by the `as_posix()` list
comprehension, restricted to the plain files recorded in `fs`: a file `q`
is returned when its components start with the components of `base` and the
remaining relative part is non-empty with a last component matching the
single-component pattern `pat` (the leading `'**/'` lets any chain of
subdirectory components stand between `base` and the matched file name). -/
def globRec (base : List String) (pat : String) (fs : List (List String)) :
    List (List String) :=
  fs.filter fun q =>
    (q.take base.length == base) &&
      (match (q.drop base.length).getLast? with
       | some c => fnmatch pat c
       | none => false)

/-- `base_dir = Path(data_dir + 'iwp')` from the notebook. -/
def base_dir : List String := splitPath (data_dir ++ "iwp")

/-- `base_dir_fp = Path(data_dir + 'footprints')` from the notebook. -/
def base_dir_fp : List String := splitPath (data_dir ++ "footprints")

/-- `input = [p.as_posix() for p in base_dir.glob('**/' + filename)]`. -/
def input (fs : List (List String)) : List String :=
  (globRec base_dir filename fs).map asPosix

/-- `fps = [p.as_posix() for p in base_dir_fp.glob('**/' + filename)]`. -/
def fps (fs : List (List String)) : List String :=
  (globRec base_dir_fp filename fs).map asPosix

/-- The configuration dictionary literal of the notebook, keys in source
order, values transcribed one for one. -/
def config : Config :=
  [ ("deduplicate_clip_to_footprint", .vbool true),
    ("dir_input", .vstr (data_dir ++ "iwp/")),
    ("ext_input", .vstr ".shp"),
    ("ext_footprints", .vstr ".shp"),
    ("dir_footprints", .vstr (data_dir ++ "footprints/")),
    ("dir_staged", .vstr "staged/"),
    ("dir_geotiff", .vstr "geotiff/"),
    ("dir_web_tiles", .vstr "web_tiles/"),
    ("filename_staging_summary", .vstr "staging_summary.csv"),
    ("filename_rasterization_events", .vstr "raster_events.csv"),
    ("filename_rasters_summary", .vstr "raster_summary.csv"),
    ("filename_config", .vstr "config"),
    ("simplify_tolerance", .vdec 1 1),
    ("tms_id", .vstr "WGS1984Quad"),
    ("z_range", .vlist [.vint 0, .vint 15]),
    ("geometricError", .vint 57),
    ("z_coord", .vint 0),
    ("statistics", .vlist
      [ .vmap
        [ ("name", .vstr "iwp_coverage"),
          ("weight_by", .vstr "area"),
          ("property", .vstr "area_per_pixel_area"),
          ("aggregation_method", .vstr "sum"),
          ("resampling_method", .vstr "average"),
          ("val_range", .vlist [.vint 0, .vint 1]),
          ("palette", .vlist [.vstr "#66339952", .vstr "#ffcc00"]),
          ("nodata_val", .vint 0),
          ("nodata_color", .vstr "#ffffff00") ] ]),
    ("deduplicate_at", .vlist [.vstr "raster"]),
    ("deduplicate_keep_rules", .vlist [.vlist [.vstr "Date", .vstr "larger"]]),
    ("deduplicate_method", .vstr "footprints") ]

/-- The behaviour of the operations the notebook invokes but does not
implement: `geopandas.read_file`, the `TileStager` and `RasterTiler`
constructors, `stage_all` and `rasterize_all`. Each either returns normally
(`.ok ()`) or raises an exception carried as a message string. -/
structure Externals where
  read_file : String → Except String Unit
  tileStager : Config → Except String Unit
  stage_all : Except String Unit
  rasterTiler : Config → Except String Unit
  rasterize_all : Except String Unit

/-- An observable action of the driver: each invocation of an external
operation, recording the argument it was handed. -/
inductive Event where
  | read_file : String → Event
  | tileStager : Config → Event
  | stage_all : Event
  | rasterTiler : Config → Event
  | rasterize_all : Event

/-- The trace of invoked operations together with the uncaught exception, if
any, that terminated the run. -/
abbrev Outcome := List Event × Option String

/-- The exception message of a Python out-of-bounds list index. -/
def indexErrorMsg : String := "IndexError: list index out of range"

/-- Sequencing of notebook evaluation: if `r` ended in an uncaught exception
the rest of the program never runs and the exception propagates unchanged;
otherwise the continuation runs and its events follow those of `r`. -/
def seqRun (r : Outcome) (k : Unit → Outcome) : Outcome :=
  match r.2 with
  | some _ => r
  | none => (r.1 ++ (k ()).1, (k ()).2)

/-- Invoking one external operation: the invocation is recorded, and an
exception it raises propagates verbatim. -/
def callOp (res : Except String Unit) (ev : Event) : Outcome :=
  ([ev],
   match res with
   | .ok _ => none
   | .error e => some e)

/-- Python list subscription `xs[i]`: raises `IndexError` when out of
bounds, otherwise continues with the element. -/
def getItem (xs : List String) (i : Nat) (k : String → Outcome) : Outcome :=
  match xs.get? i with
  | none => ([], some indexErrorMsg)
  | some x => k x

/-- One plotting cell: `gpd.read_file(xs[i])` then `gpd.read_file(ys[j])`
(the two `plot` calls read no further files and are not modelled as
events). -/
def readPair (ext : Externals) (xs ys : List String) (i j : Nat) : Outcome :=
  getItem xs i fun p =>
    seqRun (callOp (ext.read_file p) (.read_file p)) fun _ =>
      getItem ys j fun q => callOp (ext.read_file q) (.read_file q)

/-- The four plotting cells of the notebook, in order: `(input[0], fps[0])`,
`(input[1], fps[1])`, `(input[2], fps[2])`, then `(input[1], input[2])`. -/
def plotCells (ext : Externals) (inp fp : List String) : Outcome :=
  seqRun (readPair ext inp fp 0 0) fun _ =>
  seqRun (readPair ext inp fp 1 1) fun _ =>
  seqRun (readPair ext inp fp 2 2) fun _ =>
  readPair ext inp inp 1 2

/-- The pipeline cells: `stager = TileStager(config)`, `stager.stage_all()`,
then `RasterTiler(config).rasterize_all()` (the constructor runs first and
`rasterize_all` only if it returned). -/
def stageCells (ext : Externals) : Outcome :=
  seqRun (callOp (ext.tileStager config) (.tileStager config)) fun _ =>
  seqRun (callOp ext.stage_all .stage_all) fun _ =>
  seqRun (callOp (ext.rasterTiler config) (.rasterTiler config)) fun _ =>
  callOp ext.rasterize_all .rasterize_all

/-- The whole notebook run on a filesystem `fs`: the two discovery cells
(pure), the four plotting cells, then the staging and rasterization cells. -/
def runDriver (ext : Externals) (fs : List (List String)) : Outcome :=
  seqRun (plotCells ext (input fs) (fps fs)) fun _ => stageCells ext

/-- Externals in which every invoked operation returns normally. -/
def pureExt : Externals :=
  ⟨fun _ => .ok (), fun _ => .ok (), .ok (), fun _ => .ok (), .ok ()⟩

/-- Externals in which `stage_all` raises and everything else returns. -/
def extBoom : Externals :=
  ⟨fun _ => .ok (), fun _ => .ok (), .error "boom", fun _ => .ok (), .ok ()⟩

/-- A trace consisting solely of `read_file` invocations. -/
def ReadsOnly (l : List Event) : Prop := ∀ e ∈ l, ∃ p, e = Event.read_file p

/-- The shape the spec claims for every configuration value: a string, a
number, or a list with no mapping nested anywhere inside it. -/
def specFlatValue : Value → Bool
  | .vstr _ => true
  | .vint _ => true
  | .vdec _ _ => true
  | .vlist xs => !(hasMap (.vlist xs))
  | .vbool _ => false
  | .vmap _ => false

/-- A value that is a string, a number, a boolean or a list — anything but
itself a mapping. -/
def topLevelOk : Value → Bool
  | .vmap _ => false
  | _ => true

/-- A sample filesystem: three detection shapefiles (one of them directly in
the `iwp` directory), a sidecar `.dbf` that must not be discovered, three
footprint shapefiles, and a shapefile outside both trees. -/
def fsEx : List (List String) :=
  [ splitPath (data_dir ++ "iwp/d1/f1.shp"),
    splitPath (data_dir ++ "iwp/d1/f1.dbf"),
    splitPath (data_dir ++ "iwp/d2/f2.shp"),
    splitPath (data_dir ++ "iwp/f3.shp"),
    splitPath (data_dir ++ "footprints/d1/f1.shp"),
    splitPath (data_dir ++ "footprints/d2/f2.shp"),
    splitPath (data_dir ++ "footprints/f3.shp"),
    splitPath (data_dir ++ "other/f4.shp") ]

/-- The trace of a complete run on `fsEx` with well-behaved externals. -/
def traceEx : List Event :=
  [ .read_file "/home/jcohen/testing/testing_datasets/iwp_3_files/iwp/d1/f1.shp",
    .read_file "/home/jcohen/testing/testing_datasets/iwp_3_files/footprints/d1/f1.shp",
    .read_file "/home/jcohen/testing/testing_datasets/iwp_3_files/iwp/d2/f2.shp",
    .read_file "/home/jcohen/testing/testing_datasets/iwp_3_files/footprints/d2/f2.shp",
    .read_file "/home/jcohen/testing/testing_datasets/iwp_3_files/iwp/f3.shp",
    .read_file "/home/jcohen/testing/testing_datasets/iwp_3_files/footprints/f3.shp",
    .read_file "/home/jcohen/testing/testing_datasets/iwp_3_files/iwp/d2/f2.shp",
    .read_file "/home/jcohen/testing/testing_datasets/iwp_3_files/iwp/f3.shp",
    .tileStager config, .stage_all, .rasterTiler config, .rasterize_all ]

section Lemmas

/-- A pattern with neither `*` nor `?` matches exactly itself. -/
lemma fnmatchChars_noWild :
    ∀ ps cs : List Char, (∀ c ∈ ps, c ≠ '*' ∧ c ≠ '?') →
      (fnmatchChars ps cs = true ↔ cs = ps)
  | [], cs, _ => by
      show cs.isEmpty = true ↔ cs = []
      exact List.isEmpty_iff
  | p :: ps, cs, h => by
      have hp : (p == '*') = false := by
        simp only [beq_eq_false_iff_ne, ne_eq]
        exact (h p (by simp)).1
      have hq : (p == '?') = false := by
        simp only [beq_eq_false_iff_ne, ne_eq]
        exact (h p (by simp)).2
      have ih := fun cs' => fnmatchChars_noWild ps cs'
        (fun x hx => h x (List.mem_cons_of_mem _ hx))
      cases cs with
      | nil =>
        simp only [fnmatchChars, hp, Bool.false_eq_true, if_false]
        simp
      | cons c cs' =>
        simp only [fnmatchChars, hp, Bool.false_eq_true, if_false, hq,
          Bool.false_or, Bool.and_eq_true, beq_iff_eq, ih cs', List.cons.injEq]
        constructor
        · rintro ⟨rfl, rfl⟩; exact ⟨rfl, rfl⟩
        · rintro ⟨rfl, rfl⟩; exact ⟨rfl, rfl⟩

/-- `*` followed by a wildcard-free tail matches exactly the strings ending
in that tail. -/
lemma fnmatchChars_star (ps : List Char) (h : ∀ c ∈ ps, c ≠ '*' ∧ c ≠ '?')
    (cs : List Char) :
    fnmatchChars ('*' :: ps) cs = true ↔ ∃ pre, cs = pre ++ ps := by
  simp only [fnmatchChars, if_pos (by rfl : ('*' == '*') = true),
    List.any_eq_true, List.mem_range]
  constructor
  · rintro ⟨k, _, hm⟩
    rw [fnmatchChars_noWild ps _ h] at hm
    exact ⟨cs.take k, by rw [← hm, List.take_append_drop]⟩
  · rintro ⟨pre, rfl⟩
    refine ⟨pre.length, by simp only [List.mem_range, List.length_append]; omega, ?_⟩
    rw [List.drop_left, fnmatchChars_noWild ps _ h]

/-- The pattern `filename = "*.shp"` matches exactly the strings of the form
`s ++ ".shp"`. -/
lemma fnmatch_filename_iff (c : String) :
    fnmatch filename c = true ↔ ∃ s : String, c = s ++ ".shp" := by
  show fnmatchChars ('*' :: ['.', 's', 'h', 'p']) c.data = true ↔ _
  rw [fnmatchChars_star _ (by decide)]
  constructor
  · rintro ⟨pre, hpre⟩
    exact ⟨⟨pre⟩, String.ext (by rw [String.data_append, hpre])⟩
  · rintro ⟨s, rfl⟩
    exact ⟨s.data, by rw [String.data_append]⟩

/-- Membership in the modelled recursive glob: exactly the recorded files
that extend `base` by some chain of directories followed by a file name
ending in `".shp"`. -/
lemma globRec_mem_iff (base : List String) (fs : List (List String))
    (q : List String) :
    q ∈ globRec base filename fs ↔
      q ∈ fs ∧ ∃ mid s, q = base ++ mid ++ [s ++ ".shp"] := by
  unfold globRec
  rw [List.mem_filter]
  refine and_congr_right fun _ => ?_
  rw [Bool.and_eq_true, beq_iff_eq]
  constructor
  · rintro ⟨htake, hrest⟩
    rcases hlast : (q.drop base.length).getLast? with _ | c
    · rw [hlast] at hrest; simp at hrest
    · rw [hlast] at hrest
      obtain ⟨mid, hmid⟩ := List.getLast?_eq_some_iff.mp hlast
      obtain ⟨s, rfl⟩ := (fnmatch_filename_iff c).mp hrest
      refine ⟨mid, s, ?_⟩
      calc q = q.take base.length ++ q.drop base.length :=
              (List.take_append_drop _ _).symm
        _ = base ++ (mid ++ [s ++ ".shp"]) := by rw [htake, hmid]
        _ = base ++ mid ++ [s ++ ".shp"] := (List.append_assoc _ _ _).symm
  · rintro ⟨mid, s, rfl⟩
    rw [List.append_assoc]
    refine ⟨List.take_left _ _, ?_⟩
    rw [List.drop_left, List.getLast?_concat]
    exact (fnmatch_filename_iff _).mpr ⟨s, rfl⟩

/-- `as_posix` of a path ending in component `c` ends in `"/" ++ c`. -/
lemma asPosix_concat (l : List String) (c : String) :
    asPosix (l ++ [c]) = asPosix l ++ "/" ++ c := by
  unfold asPosix
  rw [List.foldl_append]
  rfl

lemma seqRun_fst_err {r : Outcome} {k : Unit → Outcome} {e : String}
    (h : r.2 = some e) : seqRun r k = r := by
  unfold seqRun
  rw [h]

lemma seqRun_fst_ok {r : Outcome} {k : Unit → Outcome} (h : r.2 = none) :
    seqRun r k = (r.1 ++ (k ()).1, (k ()).2) := by
  unfold seqRun
  rw [h]

lemma seqRun_fst (r : Outcome) (k : Unit → Outcome) :
    (seqRun r k).1 = r.1 ∨
      (r.2 = none ∧ (seqRun r k).1 = r.1 ++ (k ()).1) := by
  cases h : r.2 with
  | none => exact Or.inr ⟨rfl, by rw [seqRun_fst_ok h]⟩
  | some e => exact Or.inl (by rw [seqRun_fst_err h])

lemma seqRun_snd_none {r : Outcome} {k : Unit → Outcome} :
    (seqRun r k).2 = none ↔ r.2 = none ∧ (k ()).2 = none := by
  cases h : r.2 with
  | none => rw [seqRun_fst_ok h]; simp [h]
  | some e => rw [seqRun_fst_err h]; simp [h]

lemma seqRun_snd_some {r : Outcome} {k : Unit → Outcome} {e : String}
    (h : (seqRun r k).2 = some e) : r.2 = some e ∨ (k ()).2 = some e := by
  cases h2 : r.2 with
  | none => rw [seqRun_fst_ok h2] at h; exact Or.inr h
  | some e' => rw [seqRun_fst_err h2] at h; exact Or.inl (h2 ▸ h)

lemma callOp_fst (res : Except String Unit) (ev : Event) :
    (callOp res ev).1 = [ev] := rfl

lemma callOp_snd_none {res : Except String Unit} {ev : Event} :
    (callOp res ev).2 = none ↔ res = .ok () := by
  cases res with
  | ok u => cases u; simp [callOp]
  | error e => simp [callOp]

lemma callOp_snd_some {res : Except String Unit} {ev : Event} {e : String} :
    (callOp res ev).2 = some e ↔ res = .error e := by
  cases res with
  | ok u => simp [callOp]
  | error e' => simp [callOp]

lemma getItem_none {xs : List String} {i : Nat} {k : String → Outcome}
    (h : xs.get? i = none) : getItem xs i k = ([], some indexErrorMsg) := by
  unfold getItem
  rw [h]

lemma getItem_some {xs : List String} {i : Nat} {k : String → Outcome} {x : String}
    (h : xs.get? i = some x) : getItem xs i k = k x := by
  unfold getItem
  rw [h]

lemma readPair_reads (ext : Externals) (xs ys : List String) (i j : Nat) :
    ReadsOnly (readPair ext xs ys i j).1 := by
  intro e he
  unfold readPair at he
  cases h0 : xs.get? i with
  | none => rw [getItem_none h0] at he; simp at he
  | some p =>
    rw [getItem_some h0] at he
    rcases seqRun_fst (callOp (ext.read_file p) (.read_file p)) _ with h1 | ⟨_, h1⟩ <;>
      rw [h1] at he
    · rw [callOp_fst] at he
      simp at he
      exact ⟨p, he⟩
    · rw [callOp_fst] at he
      simp only [List.mem_append, List.mem_singleton] at he
      rcases he with rfl | he
      · exact ⟨p, rfl⟩
      · cases h2 : ys.get? j with
        | none => rw [getItem_none h2] at he; simp at he
        | some q =>
          rw [getItem_some h2, callOp_fst] at he
          simp at he
          exact ⟨q, he⟩

lemma readPair_err {ext : Externals} {xs ys : List String} {i j : Nat} {e : String}
    (h : (readPair ext xs ys i j).2 = some e) :
    (∃ p, ext.read_file p = .error e) ∨ e = indexErrorMsg := by
  unfold readPair at h
  cases h0 : xs.get? i with
  | none =>
    rw [getItem_none h0] at h
    exact Or.inr (Option.some.inj h).symm
  | some p =>
    rw [getItem_some h0] at h
    rcases seqRun_snd_some h with h1 | h1
    · exact Or.inl ⟨p, callOp_snd_some.mp h1⟩
    · cases h2 : ys.get? j with
      | none =>
        rw [getItem_none h2] at h1
        exact Or.inr (Option.some.inj h1).symm
      | some q =>
        rw [getItem_some h2] at h1
        exact Or.inl ⟨q, callOp_snd_some.mp h1⟩

lemma readPair_pure_snd {ext : Externals} (hro : ∀ p, ext.read_file p = .ok ())
    (xs ys : List String) (i j : Nat) :
    (readPair ext xs ys i j).2 = none ↔ i < xs.length ∧ j < ys.length := by
  unfold readPair
  cases h0 : xs.get? i with
  | none =>
    rw [getItem_none h0]
    rw [List.get?_eq_none] at h0
    simp [indexErrorMsg]
    omega
  | some p =>
    have hi : i < xs.length := by
      by_contra hc
      rw [List.get?_eq_none.mpr (by omega)] at h0
      exact Option.noConfusion h0
    rw [getItem_some h0, seqRun_snd_none, callOp_snd_none]
    cases h2 : ys.get? j with
    | none =>
      rw [getItem_none h2]
      rw [List.get?_eq_none] at h2
      simp [hro p, indexErrorMsg]
      omega
    | some q =>
      have hj : j < ys.length := by
        by_contra hc
        rw [List.get?_eq_none.mpr (by omega)] at h2
        exact Option.noConfusion h2
      rw [getItem_some h2, callOp_snd_none]
      simp [hro p, hro q, hi, hj]

lemma seqRun_reads {r : Outcome} {k : Unit → Outcome} (h1 : ReadsOnly r.1)
    (h2 : ReadsOnly (k ()).1) : ReadsOnly (seqRun r k).1 := by
  rcases seqRun_fst r k with h | ⟨_, h⟩ <;> rw [h]
  · exact h1
  · intro e he
    rcases List.mem_append.mp he with h' | h'
    exacts [h1 e h', h2 e h']

lemma plotCells_reads (ext : Externals) (inp fp : List String) :
    ReadsOnly (plotCells ext inp fp).1 := by
  unfold plotCells
  exact seqRun_reads (readPair_reads ext inp fp 0 0)
    (seqRun_reads (readPair_reads ext inp fp 1 1)
      (seqRun_reads (readPair_reads ext inp fp 2 2)
        (readPair_reads ext inp inp 1 2)))

lemma plotCells_err {ext : Externals} {inp fp : List String} {e : String}
    (h : (plotCells ext inp fp).2 = some e) :
    (∃ p, ext.read_file p = .error e) ∨ e = indexErrorMsg := by
  unfold plotCells at h
  rcases seqRun_snd_some h with h | h
  · exact readPair_err h
  rcases seqRun_snd_some h with h | h
  · exact readPair_err h
  rcases seqRun_snd_some h with h | h
  · exact readPair_err h
  · exact readPair_err h

lemma plotCells_pure_snd {ext : Externals} (hro : ∀ p, ext.read_file p = .ok ())
    (inp fp : List String) :
    (plotCells ext inp fp).2 = none ↔ 3 ≤ inp.length ∧ 3 ≤ fp.length := by
  simp only [plotCells, seqRun_snd_none, readPair_pure_snd hro]
  omega

lemma stageCells_fst_cases (ext : Externals) :
    (stageCells ext).1 = [Event.tileStager config] ∨
    (stageCells ext).1 = [Event.tileStager config, Event.stage_all] ∨
    (stageCells ext).1 =
      [Event.tileStager config, Event.stage_all, Event.rasterTiler config] ∨
    (stageCells ext).1 =
      [Event.tileStager config, Event.stage_all, Event.rasterTiler config,
       Event.rasterize_all] := by
  cases h1 : ext.tileStager config <;>
    cases h2 : ext.stage_all <;>
      cases h3 : ext.rasterTiler config <;>
        cases h4 : ext.rasterize_all <;>
          simp [stageCells, seqRun, callOp, h1, h2, h3, h4]

lemma stageCells_snd_none (ext : Externals) :
    (stageCells ext).2 = none ↔
      ext.tileStager config = .ok () ∧ ext.stage_all = .ok () ∧
      ext.rasterTiler config = .ok () ∧ ext.rasterize_all = .ok () := by
  simp only [stageCells, seqRun_snd_none, callOp_snd_none]

lemma stageCells_snd_some {ext : Externals} {e : String}
    (h : (stageCells ext).2 = some e) :
    ext.tileStager config = .error e ∨ ext.stage_all = .error e ∨
    ext.rasterTiler config = .error e ∨ ext.rasterize_all = .error e := by
  unfold stageCells at h
  rcases seqRun_snd_some h with h | h
  · exact Or.inl (callOp_snd_some.mp h)
  rcases seqRun_snd_some h with h | h
  · exact Or.inr (Or.inl (callOp_snd_some.mp h))
  rcases seqRun_snd_some h with h | h
  · exact Or.inr (Or.inr (Or.inl (callOp_snd_some.mp h)))
  · exact Or.inr (Or.inr (Or.inr (callOp_snd_some.mp h)))

lemma stageCells_fst_ok {ext : Externals} (h : (stageCells ext).2 = none) :
    (stageCells ext).1 =
      [Event.tileStager config, Event.stage_all, Event.rasterTiler config,
       Event.rasterize_all] := by
  obtain ⟨h1, h2, h3, h4⟩ := (stageCells_snd_none ext).mp h
  simp [stageCells, seqRun, callOp, h1, h2, h3, h4]

lemma runDriver_snd_none (ext : Externals) (fs : List (List String)) :
    (runDriver ext fs).2 = none ↔
      (plotCells ext (input fs) (fps fs)).2 = none ∧
      (stageCells ext).2 = none := by
  simp only [runDriver, seqRun_snd_none]

lemma runDriver_shape (ext : Externals) (fs : List (List String)) :
    ∃ pre : List Event, ReadsOnly pre ∧
      ((runDriver ext fs).1 = pre ∨
       (runDriver ext fs).1 = pre ++ [Event.tileStager config] ∨
       (runDriver ext fs).1 = pre ++ [Event.tileStager config, Event.stage_all] ∨
       (runDriver ext fs).1 =
         pre ++ [Event.tileStager config, Event.stage_all,
                 Event.rasterTiler config] ∨
       (runDriver ext fs).1 =
         pre ++ [Event.tileStager config, Event.stage_all,
                 Event.rasterTiler config, Event.rasterize_all]) := by
  have hplot := plotCells_reads ext (input fs) (fps fs)
  unfold runDriver
  rcases seqRun_fst (plotCells ext (input fs) (fps fs))
      (fun _ => stageCells ext) with h | ⟨h0, h⟩
  · exact ⟨_, hplot, Or.inl h⟩
  · rcases stageCells_fst_cases ext with h4 | h4 | h4 | h4 <;> rw [h4] at h <;>
      exact ⟨_, hplot, by tauto⟩

lemma runDriver_fst_ok {ext : Externals} {fs : List (List String)}
    (h : (runDriver ext fs).2 = none) :
    (runDriver ext fs).1 =
      (plotCells ext (input fs) (fps fs)).1 ++
        [Event.tileStager config, Event.stage_all, Event.rasterTiler config,
         Event.rasterize_all] := by
  obtain ⟨hp, hs⟩ := (runDriver_snd_none ext fs).mp h
  unfold runDriver
  rw [seqRun_fst_ok hp]
  dsimp only
  rw [stageCells_fst_ok hs]

lemma runDriver_snd_some {ext : Externals} {fs : List (List String)} {e : String}
    (h : (runDriver ext fs).2 = some e) :
    (plotCells ext (input fs) (fps fs)).2 = some e ∨
    (stageCells ext).2 = some e := by
  unfold runDriver at h
  exact seqRun_snd_some h

lemma mem_tileStager_config {ext : Externals} {fs : List (List String)}
    {c : Config} (h : Event.tileStager c ∈ (runDriver ext fs).1) :
    c = config := by
  obtain ⟨pre, hro, hcase⟩ := runDriver_shape ext fs
  have hpre : Event.tileStager c ∉ pre := by
    intro hmem
    obtain ⟨p, hp⟩ := hro _ hmem
    exact Event.noConfusion hp
  rcases hcase with h1 | h1 | h1 | h1 | h1 <;> rw [h1] at h
  · exact absurd h hpre
  all_goals rcases List.mem_append.mp h with h | h
  all_goals first
    | exact absurd h hpre
    | (simp at h <;> exact h)

lemma mem_rasterTiler_config {ext : Externals} {fs : List (List String)}
    {c : Config} (h : Event.rasterTiler c ∈ (runDriver ext fs).1) :
    c = config := by
  obtain ⟨pre, hro, hcase⟩ := runDriver_shape ext fs
  have hpre : Event.rasterTiler c ∉ pre := by
    intro hmem
    obtain ⟨p, hp⟩ := hro _ hmem
    exact Event.noConfusion hp
  rcases hcase with h1 | h1 | h1 | h1 | h1 <;> rw [h1] at h
  · exact absurd h hpre
  all_goals rcases List.mem_append.mp h with h | h
  all_goals first
    | exact absurd h hpre
    | (simp at h <;> exact h)

lemma input_mem_iff (fs : List (List String)) (p : String) :
    p ∈ input fs ↔ ∃ q, q ∈ fs ∧ p = asPosix q ∧
      ∃ mid s, q = base_dir ++ mid ++ [s ++ ".shp"] := by
  unfold input
  rw [List.mem_map]
  constructor
  · rintro ⟨q, hq, rfl⟩
    obtain ⟨hfs, mid, s, hdec⟩ := (globRec_mem_iff base_dir fs q).mp hq
    exact ⟨q, hfs, rfl, mid, s, hdec⟩
  · rintro ⟨q, hfs, rfl, mid, s, hdec⟩
    exact ⟨q, (globRec_mem_iff base_dir fs q).mpr ⟨hfs, mid, s, hdec⟩, rfl⟩

lemma fps_mem_iff (fs : List (List String)) (p : String) :
    p ∈ fps fs ↔ ∃ q, q ∈ fs ∧ p = asPosix q ∧
      ∃ mid s, q = base_dir_fp ++ mid ++ [s ++ ".shp"] := by
  unfold fps
  rw [List.mem_map]
  constructor
  · rintro ⟨q, hq, rfl⟩
    obtain ⟨hfs, mid, s, hdec⟩ := (globRec_mem_iff base_dir_fp fs q).mp hq
    exact ⟨q, hfs, rfl, mid, s, hdec⟩
  · rintro ⟨q, hfs, rfl, mid, s, hdec⟩
    exact ⟨q, (globRec_mem_iff base_dir_fp fs q).mpr ⟨hfs, mid, s, hdec⟩, rfl⟩

lemma asPosix_shp (base mid : List String) (s : String) :
    ∃ pre, asPosix (base ++ mid ++ [s ++ ".shp"]) = pre ++ ".shp" := by
  refine ⟨asPosix (base ++ mid) ++ "/" ++ s, ?_⟩
  rw [asPosix_concat, ← String.append_assoc]

lemma runDriver_fsEx : runDriver pureExt fsEx = (traceEx, none) := by rfl

lemma tileStager_mem_fsEx :
    Event.tileStager config ∈ (runDriver pureExt fsEx).1 := by
  rw [runDriver_fsEx]
  simp [traceEx]

lemma rasterTiler_mem_fsEx :
    Event.rasterTiler config ∈ (runDriver pureExt fsEx).1 := by
  rw [runDriver_fsEx]
  simp [traceEx]

lemma runDriver_extBoom : (runDriver extBoom fsEx).2 = some "boom" := by rfl

end Lemmas

section Claims

/-- C1: the driver defines the configuration mapping once and hands that same
mapping to both external stages — whatever configuration the `TileStager`
constructor is invoked with equals whatever configuration the `RasterTiler`
constructor is invoked with, key by key. -/
theorem c1_same_config_to_both_stages (ext : Externals)
    (fs : List (List String)) (c c' : Config)
    (h1 : Event.tileStager c ∈ (runDriver ext fs).1)
    (h2 : Event.rasterTiler c' ∈ (runDriver ext fs).1) :
    c = c' ∧ ∀ key : String, c.lookup key = c'.lookup key := by
  have e1 := mem_tileStager_config h1
  have e2 := mem_rasterTiler_config h2
  exact ⟨e1.trans e2.symm, fun key => by rw [e1, e2]⟩

/-- Witness for C1 at a concrete filesystem with three detection and three
footprint shapefiles. -/
theorem c1_witness :
    Event.tileStager config ∈ (runDriver pureExt fsEx).1 ∧
    Event.rasterTiler config ∈ (runDriver pureExt fsEx).1 ∧
    config = config ∧
    ∀ key : String, config.lookup key = config.lookup key :=
  ⟨tileStager_mem_fsEx, rasterTiler_mem_fsEx,
   c1_same_config_to_both_stages pureExt fsEx config config
     tileStager_mem_fsEx rasterTiler_mem_fsEx⟩

/-- C2: staging precedes rasterization in every execution — whenever
`rasterize_all` is invoked at all, a `stage_all` invocation occurs strictly
before it and no `rasterize_all` invocation precedes that `stage_all`; and a
run that finishes without an exception invoked both. -/
theorem c2_stage_before_rasterize (ext : Externals) (fs : List (List String)) :
    (Event.rasterize_all ∈ (runDriver ext fs).1 →
      ∃ l1 l2, (runDriver ext fs).1 = l1 ++ Event.stage_all :: l2 ∧
        Event.rasterize_all ∉ l1 ∧ Event.rasterize_all ∈ l2) ∧
    ((runDriver ext fs).2 = none →
      Event.stage_all ∈ (runDriver ext fs).1 ∧
      Event.rasterize_all ∈ (runDriver ext fs).1) := by
  constructor
  · intro h
    obtain ⟨pre, hro, hcase⟩ := runDriver_shape ext fs
    have hnr : Event.rasterize_all ∉ pre := by
      intro hm
      obtain ⟨p, hp⟩ := hro _ hm
      exact Event.noConfusion hp
    rcases hcase with h1 | h1 | h1 | h1 | h1 <;> rw [h1] at h ⊢
    · exact absurd h hnr
    · rcases List.mem_append.mp h with h | h
      · exact absurd h hnr
      · simp at h
    · rcases List.mem_append.mp h with h | h
      · exact absurd h hnr
      · simp at h
    · rcases List.mem_append.mp h with h | h
      · exact absurd h hnr
      · simp at h
    · refine ⟨pre ++ [Event.tileStager config],
        [Event.rasterTiler config, Event.rasterize_all], by simp, ?_, by simp⟩
      intro hm
      rcases List.mem_append.mp hm with hm | hm
      · exact hnr hm
      · simp at hm
  · intro h
    rw [runDriver_fst_ok h]
    constructor <;> simp

/-- Witness for C2: on the sample filesystem the run completes and both
pipeline operations appear in the trace. -/
theorem c2_witness :
    (runDriver pureExt fsEx).2 = none ∧
    Event.stage_all ∈ (runDriver pureExt fsEx).1 ∧
    Event.rasterize_all ∈ (runDriver pureExt fsEx).1 :=
  ⟨by rw [runDriver_fsEx],
   (c2_stage_before_rasterize pureExt fsEx).2 (by rw [runDriver_fsEx])⟩

/-- C3: input discovery returns exactly the posix strings of the recorded
files lying under `data_dir + 'iwp'` whose relative path is any chain of
directories ending in a file name matching `*.shp`, and footprint discovery
does the same under `data_dir + 'footprints'`; nothing else is selected. -/
theorem c3_discovery_exact (fs : List (List String)) (p : String) :
    (p ∈ input fs ↔ ∃ q, q ∈ fs ∧ p = asPosix q ∧
        ∃ mid s, q = base_dir ++ mid ++ [s ++ ".shp"]) ∧
    (p ∈ fps fs ↔ ∃ q, q ∈ fs ∧ p = asPosix q ∧
        ∃ mid s, q = base_dir_fp ++ mid ++ [s ++ ".shp"]) :=
  ⟨input_mem_iff fs p, fps_mem_iff fs p⟩

/-- C4 counterexample: the configuration as written is not made of strings,
numbers and mapping-free lists only — its very first entry,
`deduplicate_clip_to_footprint`, holds the boolean `True`, so the claimed
shape predicate fails on the configuration. -/
theorem c4_counterexample :
    specFlatValue (Value.vbool true) = false ∧
    ("deduplicate_clip_to_footprint", Value.vbool true) ∈ config ∧
    config.all (fun kv => specFlatValue kv.2) = false := by
  refine ⟨rfl, ?_, rfl⟩
  unfold config
  exact List.Mem.head _

/-- C4 as amended: every configuration value is a string, a number, a boolean
or a list — never itself a mapping — though list values may nest mappings
(the `statistics` entry is a list holding a mapping); and the configuration
is consumed verbatim by both external constructors. -/
theorem c4_amended_top_level_flat :
    config.all (fun kv => topLevelOk kv.2) = true ∧
    (∃ flds, config.lookup "statistics" = some (Value.vlist [Value.vmap flds])) ∧
    (∀ (ext : Externals) (fs : List (List String)) (c : Config),
      (Event.tileStager c ∈ (runDriver ext fs).1 → c = config) ∧
      (Event.rasterTiler c ∈ (runDriver ext fs).1 → c = config)) :=
  ⟨rfl, ⟨_, rfl⟩, fun _ _ _ =>
    ⟨fun h => mem_tileStager_config h, fun h => mem_rasterTiler_config h⟩⟩

/-- Witness for the amended C4 on the sample filesystem. -/
theorem c4_witness :
    Event.tileStager config ∈ (runDriver pureExt fsEx).1 ∧ config = config :=
  ⟨tileStager_mem_fsEx,
   (c4_amended_top_level_flat.2.2 pureExt fsEx config).1 tileStager_mem_fsEx⟩

/-- C5: the configuration dictionary contains every key of the
external-interface schema: the input, footprint and output locations and
extensions, the statistics list, all three deduplication keys, and the
tiling-scheme parameters. -/
theorem c5_schema_keys_present :
    "dir_input" ∈ config.map Prod.fst ∧
    "ext_input" ∈ config.map Prod.fst ∧
    "dir_footprints" ∈ config.map Prod.fst ∧
    "ext_footprints" ∈ config.map Prod.fst ∧
    "dir_staged" ∈ config.map Prod.fst ∧
    "dir_geotiff" ∈ config.map Prod.fst ∧
    "dir_web_tiles" ∈ config.map Prod.fst ∧
    "statistics" ∈ config.map Prod.fst ∧
    "deduplicate_clip_to_footprint" ∈ config.map Prod.fst ∧
    "deduplicate_at" ∈ config.map Prod.fst ∧
    "deduplicate_keep_rules" ∈ config.map Prod.fst ∧
    "deduplicate_method" ∈ config.map Prod.fst ∧
    "z_range" ∈ config.map Prod.fst ∧
    "tms_id" ∈ config.map Prod.fst ∧
    "geometricError" ∈ config.map Prod.fst := by
  decide

/-- C6: the driver installs no handler of its own — an exception that
terminates the run is verbatim one raised by an invoked operation (an
external call, or the out-of-bounds list subscript), and when every external
call returns normally the run can only end cleanly or with the subscript's
own `IndexError`. -/
theorem c6_no_error_handling (ext : Externals) (fs : List (List String)) :
    (∀ e, (runDriver ext fs).2 = some e →
      (∃ p, ext.read_file p = .error e) ∨
      ext.tileStager config = .error e ∨ ext.stage_all = .error e ∨
      ext.rasterTiler config = .error e ∨ ext.rasterize_all = .error e ∨
      e = indexErrorMsg) ∧
    ((∀ p, ext.read_file p = .ok ()) → ext.tileStager config = .ok () →
      ext.stage_all = .ok () → ext.rasterTiler config = .ok () →
      ext.rasterize_all = .ok () →
      (runDriver ext fs).2 = none ∨
      (runDriver ext fs).2 = some indexErrorMsg) := by
  constructor
  · intro e h
    rcases runDriver_snd_some h with h | h
    · rcases plotCells_err h with h | h
      · exact Or.inl h
      · tauto
    · rcases stageCells_snd_some h with h | h | h | h <;> tauto
  · intro hr h1 h2 h3 h4
    cases hv : (runDriver ext fs).2 with
    | none => exact Or.inl rfl
    | some e =>
      right
      rcases runDriver_snd_some hv with h | h
      · rcases plotCells_err h with ⟨p, hp⟩ | he
        · rw [hr p] at hp
          exact absurd hp (by simp)
        · rw [he]
      · rcases stageCells_snd_some h with hx | hx | hx | hx
        · rw [h1] at hx
          exact absurd hx (by simp)
        · rw [h2] at hx
          exact absurd hx (by simp)
        · rw [h3] at hx
          exact absurd hx (by simp)
        · rw [h4] at hx
          exact absurd hx (by simp)

/-- Witness for C6: externals whose `stage_all` raises `"boom"` make the whole
run end with exactly that exception, and the theorem traces it back to the
raising operation. -/
theorem c6_witness :
    (runDriver extBoom fsEx).2 = some "boom" ∧
    ((∃ p, extBoom.read_file p = .error "boom") ∨
     extBoom.tileStager config = .error "boom" ∨
     extBoom.stage_all = .error "boom" ∨
     extBoom.rasterTiler config = .error "boom" ∨
     extBoom.rasterize_all = .error "boom" ∨
     "boom" = indexErrorMsg) :=
  ⟨runDriver_extBoom,
   (c6_no_error_handling extBoom fsEx).1 "boom" runDriver_extBoom⟩

/-- C7: the configuration is never mutated after construction — at the moment
of the `TileStager` call and at the moment of the `RasterTiler` call the
configuration handed over equals the literal initial value `config`. -/
theorem c7_config_never_mutated (ext : Externals) (fs : List (List String))
    (c : Config) :
    (Event.tileStager c ∈ (runDriver ext fs).1 → c = config) ∧
    (Event.rasterTiler c ∈ (runDriver ext fs).1 → c = config) :=
  ⟨fun h => mem_tileStager_config h, fun h => mem_rasterTiler_config h⟩

/-- Witness for C7 on the sample filesystem. -/
theorem c7_witness :
    Event.rasterTiler config ∈ (runDriver pureExt fsEx).1 ∧ config = config :=
  ⟨rasterTiler_mem_fsEx,
   (c7_config_never_mutated pureExt fsEx config).2 rasterTiler_mem_fsEx⟩

/-- C9: with well-behaved externals the run succeeds exactly when discovery
found at least three detection files and at least three footprint files; on
any filesystem with fewer matches the unguarded subscripts of the plotting
cells abort the run with an `IndexError`. -/
theorem c9_plots_need_three_files (fs : List (List String)) :
    ((runDriver pureExt fs).2 = none ↔
      3 ≤ (input fs).length ∧ 3 ≤ (fps fs).length) ∧
    (¬(3 ≤ (input fs).length ∧ 3 ≤ (fps fs).length) →
      (runDriver pureExt fs).2 = some indexErrorMsg) := by
  have hro : ∀ p, pureExt.read_file p = .ok () := fun _ => rfl
  have hiff : (runDriver pureExt fs).2 = none ↔
      3 ≤ (input fs).length ∧ 3 ≤ (fps fs).length := by
    rw [runDriver_snd_none, plotCells_pure_snd hro, stageCells_snd_none]
    simp [pureExt]
  refine ⟨hiff, fun hn => ?_⟩
  cases hv : (runDriver pureExt fs).2 with
  | none => exact absurd (hiff.mp hv) hn
  | some e =>
    rcases runDriver_snd_some hv with h | h
    · rcases plotCells_err h with ⟨p, hp⟩ | he
      · exact absurd hp (by simp [pureExt])
      · rw [he]
    · rcases stageCells_snd_some h with hx | hx | hx | hx <;>
        exact absurd hx (by simp [pureExt])

/-- Witness for C9: on the empty filesystem the run aborts with the
out-of-bounds exception. -/
theorem c9_witness :
    ¬(3 ≤ (input ([] : List (List String))).length ∧
      3 ≤ (fps ([] : List (List String))).length) ∧
    (runDriver pureExt []).2 = some indexErrorMsg :=
  ⟨by decide, (c9_plots_need_three_files []).2 (by decide)⟩

/-- C10: both discoveries run the single pattern `filename` over their
directories, every discovered input or footprint path ends in `".shp"`, and
that agrees with the configuration's `ext_input` and `ext_footprints`
values. -/
theorem c10_extension_agreement (fs : List (List String)) (p : String) :
    input fs = (globRec base_dir filename fs).map asPosix ∧
    fps fs = (globRec base_dir_fp filename fs).map asPosix ∧
    config.lookup "ext_input" = some (Value.vstr ".shp") ∧
    config.lookup "ext_footprints" = some (Value.vstr ".shp") ∧
    (p ∈ input fs → ∃ pre, p = pre ++ ".shp") ∧
    (p ∈ fps fs → ∃ pre, p = pre ++ ".shp") := by
  refine ⟨rfl, rfl, by rfl, by rfl, fun h => ?_, fun h => ?_⟩
  · obtain ⟨q, _, rfl, mid, s, rfl⟩ := (input_mem_iff fs p).mp h
    exact asPosix_shp base_dir mid s
  · obtain ⟨q, _, rfl, mid, s, rfl⟩ := (fps_mem_iff fs p).mp h
    exact asPosix_shp base_dir_fp mid s

/-- Witness for C10: a concrete discovered path and its `".shp"` suffix. -/
theorem c10_witness :
    "/home/jcohen/testing/testing_datasets/iwp_3_files/iwp/d1/f1.shp" ∈
      input fsEx ∧
    ∃ pre, "/home/jcohen/testing/testing_datasets/iwp_3_files/iwp/d1/f1.shp" =
      pre ++ ".shp" := by
  have hm : "/home/jcohen/testing/testing_datasets/iwp_3_files/iwp/d1/f1.shp" ∈
      input fsEx := by
    rw [show input fsEx =
      [ "/home/jcohen/testing/testing_datasets/iwp_3_files/iwp/d1/f1.shp",
        "/home/jcohen/testing/testing_datasets/iwp_3_files/iwp/d2/f2.shp",
        "/home/jcohen/testing/testing_datasets/iwp_3_files/iwp/f3.shp" ] from rfl]
    simp
  exact ⟨hm, (c10_extension_agreement fsEx _).2.2.2.2.1 hm⟩

end Claims

end Viz
